import Mathlib

/-!
Verification development for the PressPaper prototype ingestion pipeline
(link collection, content extraction, topic classification, storage).

The Python sources are shallowly embedded: pure string manipulation is
modelled on `List Char` / `String`, the network (HTTP fetch, headless
browser) is modelled as an explicit function argument returning
`Except String _` (an `.error e` models a raised request exception with
message `e`), HTML parsing (BeautifulSoup element selection) is modelled
by passing the selected element texts as data, and the SQL store is
modelled as a list of rows with the upsert / update statements embedded
as list transformations.
-/

/-! ### Basic string model

Python string helpers used throughout the sources.  A Lean `String` in
this file carries its `List Char` data; the relevant Python operations
(`str.split()`, `" ".join`, `str.strip()`, `str.lower()`) are modelled
character-exactly for the ASCII texts the pipeline handles.
-/

/-- Characters treated as whitespace by Python's `str.split()` /
`str.strip()` (restricted to the characters that can occur here; the
sources additionally replace the non-breaking space `\xa0` by `' '`
before splitting, and we include it in the class as Python does). -/
def isSpaceChar (c : Char) : Bool :=
  c = ' ' || c = '\t' || c = '\n' || c = '\r' || c = '\x0b' || c = '\x0c' || c = '\xa0'

/-- Python `s.strip()` on the character list. -/
def stripChars (s : List Char) : List Char :=
  ((s.dropWhile isSpaceChar).reverse.dropWhile isSpaceChar).reverse

/-- Python `s.strip()`. -/
def stripStr (s : String) : String :=
  ⟨stripChars s.data⟩

/-- Splitter for Python `s.split()`: cut at every whitespace character
(producing empty pieces at whitespace runs, filtered away by the
caller). -/
def splitPieces (s : List Char) : List (List Char) :=
  s.foldr
    (fun c acc =>
      if isSpaceChar c then [] :: acc
      else
        match acc with
        | [] => [[c]]
        | w :: ws => (c :: w) :: ws)
    [[]]

/-- Python `s.split()`: maximal non-empty runs of non-whitespace. -/
def pySplit (s : List Char) : List (List Char) :=
  (splitPieces s).filter (fun w => w ≠ [])

/-- `" ".join(words)` on character lists. -/
def joinSp : List (List Char) → List Char
  | [] => []
  | [w] => w
  | w :: ws => w ++ ' ' :: joinSp ws

/-- Python `" ".join(s.replace("\xa0", " ").split()).strip()`, the
`_clean_text` / `_clean` helper shared by the collectors and
extractors: split on whitespace runs and re-join with single spaces
(the replace is subsumed because `\xa0` is in the whitespace class; the
final strip is the identity on a single-space join of non-empty
words). -/
def cleanText (s : String) : String :=
  ⟨joinSp (pySplit s.data)⟩

/-- Python `s.lower()` (ASCII case folding, which is exact for the
taxonomy keywords and the site content handled here). -/
def lowerStr (s : String) : String :=
  ⟨s.data.map Char.toLower⟩

/-- Python `s.startswith(pre)` on character lists. -/
def startsWithL (pre s : List Char) : Bool :=
  decide (s.take pre.length = pre)

/-- Python `s.endswith(post)` on character lists. -/
def endsWithL (post s : List Char) : Bool :=
  decide (s.reverse.take post.length = post.reverse)

/-- `(hay.drop i).take needle.length = needle`: the literal `needle`
occurs in `hay` at position `i`. -/
def subAt (hay needle : List Char) (i : Nat) : Bool :=
  decide ((hay.drop i).take needle.length = needle)

/-- Python `needle in hay` (substring containment). -/
def hasSub (needle hay : List Char) : Bool :=
  (List.range (hay.length + 1)).any (subAt hay needle)

/-- Python `needle in hay` on `String`. -/
def containsSub (needle hay : String) : Bool :=
  hasSub needle.data hay.data

/-! ### Word-boundary regex model

`topics._score` tests `re.search(r"\b" + re.escape(kw) + r"\b", t)`:
the escaped keyword is a literal, so a match is an occurrence of the
literal with a `\b` word boundary on each side.  `\b` holds between two
positions exactly when the word-character status changes (positions
outside the string count as non-word). -/

/-- Python regex `\w` for the ASCII texts involved. -/
def isWordChar (c : Char) : Bool :=
  c.isAlphanum || c = '_'

/-- Whether position `i` of `s` holds a word character (`false` out of
range). -/
def wordAt (s : List Char) (i : Nat) : Bool :=
  match s.get? i with
  | some c => isWordChar c
  | none => false

/-- Python regex `\b` at position `i` of `s`. -/
def boundaryAt (s : List Char) (i : Nat) : Bool :=
  match i with
  | 0 => wordAt s 0
  | j + 1 => wordAt s j != wordAt s (j + 1)

/-- A match of the literal pattern `kw` with `\b` on both sides at
position `i` of `s`. -/
def wbMatchAt (s kw : List Char) (i : Nat) : Bool :=
  subAt s kw i && boundaryAt s i && boundaryAt s (i + kw.length)

/-- Python `re.search(r"\b" + re.escape(kw) + r"\b", s) is not None`. -/
def wbSearch (kw s : List Char) : Bool :=
  (List.range (s.length + 1)).any (wbMatchAt s kw)

/-- Number of non-overlapping left-to-right matches of `\b kw \b` in
`s` (the count `re.findall` would give for a literal pattern); fuelled
scan, fuel `s.length + 1` always suffices. -/
def wbCountAux (s kw : List Char) : Nat → Nat → Nat
  | 0, _ => 0
  | fuel + 1, i =>
    if i > s.length then 0
    else if wbMatchAt s kw i then 1 + wbCountAux s kw fuel (i + kw.length)
    else wbCountAux s kw fuel (i + 1)

/-- Non-overlapping match count of `\b kw \b` in `s`. -/
def wbCount (kw s : List Char) : Nat :=
  wbCountAux s kw (s.length + 1) 0

/-! ### topics.py -/

/-- `TOPIC_TAXONOMY` from topics.py. -/
def TOPIC_TAXONOMY : List String :=
  [ "Arts, culture and sport",
    "Building and planning",
    "Business, economy and innovation",
    "Children and families",
    "Communities and regeneration",
    "Coronavirus (COVID-19)",
    "Digital",
    "Education and skills",
    "Employment and work",
    "Environment and climate change",
    "Equality and human rights",
    "Farming and countryside",
    "Health and social care",
    "Housing",
    "International and EU",
    "Justice and law",
    "Marine and fisheries",
    "Public sector",
    "Transport",
    "Welsh language" ]

/-- `TOPIC_KEYWORDS` from topics.py as a lookup (topics absent from the
dict map to `[]`).  Every key of the Python dict is a member of
`TOPIC_TAXONOMY`. -/
def TOPIC_KEYWORDS (topic : String) : List String :=
  if topic = "Health and social care" then
    ["nhs", "health", "care", "hospital", "dental", "cancer", "mental health"]
  else if topic = "Education and skills" then
    ["school", "education", "learner", "curriculum", "inset", "teacher", "university"]
  else if topic = "Transport" then
    ["transport", "rail", "bus", "road", "traffic", "20mph", "active travel"]
  else if topic = "Environment and climate change" then
    ["climate", "flood", "carbon", "emissions", "energy", "net zero", "environment"]
  else if topic = "Business, economy and innovation" then
    ["economy", "business", "investment", "innovation", "trade", "growth"]
  else if topic = "Housing" then
    ["housing", "rent", "landlord", "homeless", "property"]
  else if topic = "Justice and law" then
    ["law", "legal", "justice", "tribunal", "statutory", "legislation", "order"]
  else if topic = "Public sector" then
    ["public", "government", "local authority", "council", "procurement"]
  else if topic = "Children and families" then
    ["child", "children", "family", "safeguarding", "looked after"]
  else if topic = "Coronavirus (COVID-19)" then
    ["covid", "coronavirus", "pandemic"]
  else if topic = "Welsh language" then
    ["welsh language", "cymraeg", "welsh-speaking"]
  else if topic = "Digital" then
    ["digital", "data", "online", "ai", "technology"]
  else if topic = "Employment and work" then
    ["employment", "work", "jobs", "labour market", "wages"]
  else []

/-- The inner loop of `topics._score` for one topic: for each keyword,
add 1 when `re.search(\b kw \b, t)` finds a match.  `t` is the already
lower-cased text. -/
def topicScore (topic : String) (t : List Char) : Nat :=
  (TOPIC_KEYWORDS topic).foldl
    (fun acc kw => if wbSearch kw.data t then acc + 1 else acc) 0

/-- `topics._score text`: the scores dict, as an association list in its
Python iteration order.  The dict is created with the keys in
`TOPIC_TAXONOMY` order and the update loop only touches existing keys
(every `TOPIC_KEYWORDS` key is in the taxonomy), so `scores.items()`
enumerates taxonomy order with each topic's accumulated score. -/
def scoreList (text : String) : List (String × Nat) :=
  let t := (lowerStr text).data
  TOPIC_TAXONOMY.map (fun k => (k, topicScore k t))

/-- Stable descending insertion by score: the inserted element goes in
front of the first list element whose score is ≤ its own, so it lands
after every strictly greater score and before every equal one. -/
def insertDesc (x : String × Nat) : List (String × Nat) → List (String × Nat)
  | [] => [x]
  | y :: ys => if y.2 ≤ x.2 then x :: y :: ys else y :: insertDesc x ys

/-- The stable descending sort by score.  This embeds Python's
`sorted(scores.items(), key=lambda x: x[1], reverse=True)`: Python's
sort is stable (equal keys keep their input order, also with
`reverse=True`), and a stable sort's output is uniquely determined, so
any stable implementation is extensionally the same function; the
lemma `sortDesc_eq_mergeSort` below equates it with the standard
library's stable `List.mergeSort` under the same comparator. -/
def sortDesc (l : List (String × Nat)) : List (String × Nat) :=
  l.foldr insertDesc []

/-- `topics.guess_topics title body max_topics`. -/
def guessTopics (title body : String) (maxTopics : Nat) : List String :=
  let scores := scoreList (title ++ " " ++ body)
  let ranked := sortDesc scores
  ((ranked.filter (fun p => decide (0 < p.2))).map (fun p => p.1)).take maxTopics

/-- The descending-by-score comparator is transitive. -/
theorem scoreLE_trans (a b c : String × Nat)
    (h₁ : decide (b.2 ≤ a.2) = true) (h₂ : decide (c.2 ≤ b.2) = true) :
    decide (c.2 ≤ a.2) = true := by
  simp only [decide_eq_true_eq] at *
  omega

/-- The descending-by-score comparator is total. -/
theorem scoreLE_total (a b : String × Nat) :
    (decide (b.2 ≤ a.2) || decide (a.2 ≤ b.2)) = true := by
  simp only [Bool.or_eq_true, decide_eq_true_eq]
  omega

/-- Inserting `x` into a sorted split where everything on the left is
strictly greater and everything on the right is ≤ puts it exactly at
the split point. -/
theorem insertDesc_append (x : String × Nat) (l₁ l₂ : List (String × Nat))
    (h₁ : ∀ b ∈ l₁, x.2 < b.2) (h₂ : ∀ c ∈ l₂, c.2 ≤ x.2) :
    insertDesc x (l₁ ++ l₂) = l₁ ++ x :: l₂ := by
  induction l₁ with
  | nil =>
    cases l₂ with
    | nil => rfl
    | cons c cs =>
      simp only [List.nil_append, insertDesc,
        if_pos (h₂ c (List.mem_cons_self c cs))]
  | cons b bs ih =>
    have hb : ¬ b.2 ≤ x.2 := Nat.not_le.mpr (h₁ b (List.mem_cons_self b bs))
    simp only [List.cons_append, insertDesc, if_neg hb, List.cons.injEq, true_and]
    exact ih (fun b' hb' => h₁ b' (List.mem_cons_of_mem b hb'))

/-- `sortDesc` computes exactly the standard library's stable
`mergeSort` under the descending-by-score comparator, so it is the
stable descending sort Python's `sorted(·, key=score, reverse=True)`
specifies. -/
theorem sortDesc_eq_mergeSort (l : List (String × Nat)) :
    sortDesc l = l.mergeSort (fun a b => decide (b.2 ≤ a.2)) := by
  induction l with
  | nil => simp [sortDesc]
  | cons a l ih =>
    obtain ⟨l₁, l₂, h₁, h₂, h₃⟩ := List.mergeSort_cons scoreLE_trans scoreLE_total a l
    have hsorted := List.sorted_mergeSort scoreLE_trans scoreLE_total (a :: l)
    rw [h₁] at hsorted
    have hleft : ∀ b ∈ l₁, a.2 < b.2 := by
      intro b hb
      have := h₃ b hb
      simp only [Bool.not_eq_true', decide_eq_false_iff_not] at this
      omega
    have hright : ∀ c ∈ l₂, c.2 ≤ a.2 := by
      intro c hc
      have hpair := (List.pairwise_append.mp hsorted).2.1
      have := (List.pairwise_cons.mp hpair).1 c hc
      simpa using this
    have : sortDesc (a :: l) = insertDesc a (sortDesc l) := rfl
    rw [this, ih, h₂, insertDesc_append a l₁ l₂ hleft hright, h₁]

example : cleanText "  a \t b\xa0c  " = "a b c" := by decide
example : wbSearch "nhs".data "the nhs plan".data = true := by decide
example : wbSearch "nhs".data "the nhsx plan".data = false := by decide
example : wbSearch "mental health".data "on mental health today".data = true := by decide
example : wbCount "nhs".data "nhs nhs".data = 2 := by decide
example : topicScore "Health and social care" "nhs nhs".data = 1 := by decide
example : guessTopics "NHS Wales announces" "investment in hospital care" 3 =
    ["Health and social care", "Business, economy and innovation"] := by decide

/-! ### Link collection

Three collector variants exist in the sources.  Network fetching and
HTML parsing are abstracted: a collector takes a `fetch` function from
(listing path/slug, page number) to `Except String (List Anchor)`,
where `.error e` models a raised request exception (or a failed
`raise_for_status`) and the anchor list models the `a[href]` elements
selected inside the page's main region, in document order. -/

/-- An `<a>` element as the collectors see it: its `href` attribute and
its visible text. -/
structure Anchor where
  href : String
  text : String
deriving Repr, DecidableEq

/-- A collected link candidate (the `{"category", "title", "url"}` dict
the collectors build). -/
structure LinkItem where
  category : String
  title : String
  url : String
deriving Repr, DecidableEq

/-- Site base URL shared by all collector variants. -/
def BASE : String := "https://www.gov.wales"

/-- Model of `urllib.parse.urljoin(BASE, href)` for this base (which
has no path): an absolute `http(s)` href is returned as-is, a
root-relative href is appended to the origin, and any other relative
href resolves against the root. -/
def urljoinBase (href : String) : String :=
  if startsWithL "http://".data href.data || startsWithL "https://".data href.data then
    href
  else if startsWithL "/".data href.data then BASE ++ href
  else BASE ++ "/" ++ href

/-! #### collector_wales.py -/

/-- The category → listing slug dict of collector_wales.py, in its
declaration (= iteration) order. -/
def WALES_CATEGORIES : List (String × String) :=
  [ ("Announcements", "announcements"),
    ("Consultations", "consultations"),
    ("Publications", "publications"),
    ("Statistics and Research", "statistics-and-research") ]

/-- The per-anchor body of `_collect_from_listing`'s inner loop: clean
the text, skip empty href/text, join the URL, and skip listing
self-links and `/node/` URLs. -/
def walesAnchorItem (categoryName slug : String) (a : Anchor) : Option LinkItem :=
  let href := a.href
  let text := cleanText a.text
  if href = "" || text = "" then none
  else
    let full := urljoinBase href
    if endsWithL slug.data full.data || endsWithL (slug ++ "/").data full.data then none
    else if hasSub "/node/".data full.data then none
    else some { category := categoryName, title := text, url := full }

/-- The items one successfully fetched listing page contributes. -/
def walesPageItems (categoryName slug : String) (anchors : List Anchor) : List LinkItem :=
  anchors.filterMap (walesAnchorItem categoryName slug)

/-- The `seen`-set dedup at the end of `_collect_from_listing`
(lines 66–73 of collector_wales.py): keep an item iff its URL has not
been seen yet, so the first occurrence wins and first-seen order is
preserved. -/
def dedupSeenAux : List String → List LinkItem → List LinkItem
  | _, [] => []
  | seen, x :: xs =>
    if seen.contains x.url then dedupSeenAux seen xs
    else x :: dedupSeenAux (x.url :: seen) xs

/-- `collector_wales` de-dup by url preserving order. -/
def dedupByUrl (items : List LinkItem) : List LinkItem :=
  dedupSeenAux [] items

/-- `collector_wales._collect_from_listing`: iterate the pages, skip a
page whose fetch raises (`try/except: continue`), collect the anchors
of the others, then dedup by URL.  (A page without a `main`/`body`
region is also skipped by the source; that case is folded into the
fetch result.) -/
def collectFromListing (fetch : String → Nat → Except String (List Anchor))
    (categoryName slug : String) (maxPages : Nat) : List LinkItem :=
  let out := (List.range maxPages).foldl
    (fun acc p =>
      match fetch slug p with
      | .error _ => acc
      | .ok anchors => acc ++ walesPageItems categoryName slug anchors)
    []
  dedupByUrl out

/-- `collector_wales.fetch_wales_links`: concatenate the per-category
collections (each deduplicated only within its own category). -/
def fetchWalesLinks (fetch : String → Nat → Except String (List Anchor))
    (maxPagesEach : Nat) : List LinkItem :=
  WALES_CATEGORIES.foldl
    (fun acc cs => acc ++ collectFromListing fetch cs.1 cs.2 maxPagesEach) []

/-! #### Python-dict dedup (extractor_wales.collect_links lines 112–114
and ingest_service/scraper.collect_links lines 59–62) -/

/-- Assignment `m[k] = v` on a Python dict modelled as an insertion-
ordered association list: an existing key keeps its position and gets
the new value; a new key is appended. -/
def dictAssign (m : List (String × LinkItem)) (k : String) (v : LinkItem) :
    List (String × LinkItem) :=
  if m.any (fun p => p.1 = k) then
    m.map (fun p => if p.1 = k then (k, v) else p)
  else m ++ [(k, v)]

/-- `uniq = {}; for item in out: uniq[item["url"]] = item;
list(uniq.values())` — also the semantics of the dict comprehension
`{r["url"]: r for r in results}.values()`.  Keys keep first-seen
order, but each key's value is the **last** item with that URL. -/
def dictDedup (items : List LinkItem) : List LinkItem :=
  (items.foldl (fun m r => dictAssign m r.url r) []).map (fun p => p.2)

/-! #### ingest_service/scraper.py collect_links -/

/-- The category → listing path dict of ingest_service/scraper.py. -/
def SCRAPER_CATEGORIES : List (String × String) :=
  [ ("Announcements", "/announcements"),
    ("Consultations", "/consultations"),
    ("Publications", "/publications"),
    ("Statistics and Research", "/statistics-and-research") ]

/-- `JUNK_URL_BITS` of ingest_service/scraper.py. -/
def JUNK_URL_BITS : List String :=
  ["/rss", "/cookies", "/privacy", "/terms", "/accessibility", "/sitemap",
   "/search", "/newsletter"]

/-- `scraper.looks_junk`: any junk bit is a substring of the lowered
URL. -/
def looksJunk (url : String) : Bool :=
  JUNK_URL_BITS.any (fun bit => hasSub bit.data (lowerStr url).data)

/-- The per-anchor body of `scraper.collect_links`'s inner loop. -/
def scraperAnchorItem (category : String) (a : Anchor) : Option LinkItem :=
  let href := a.href
  let title := cleanText a.text
  if !startsWithL "/".data href.data then none
  else if title.length < 12 then none
  else
    let full := urljoinBase href
    if looksJunk full then none
    else some { category := category, title := title, url := full }

/-- The items one fetched listing page contributes in
`scraper.collect_links`. -/
def scraperPageItems (category : String) (anchors : List Anchor) : List LinkItem :=
  anchors.filterMap (scraperAnchorItem category)

/-- `ingest_service/scraper.collect_links`: iterate categories and
pages, *without* a try/except around the fetch — a failed page fetch
(`requests.get` raising, or `raise_for_status`) propagates and aborts
the whole collection, modelled by the `Except` short-circuit.  On
success the accumulated items are dict-deduplicated by URL. -/
def scraperCollectLinks (fetch : String → Nat → Except String (List Anchor))
    (maxPagesEach : Nat) : Except String (List LinkItem) :=
  (SCRAPER_CATEGORIES.foldlM
    (fun (acc : List LinkItem) (cs : String × String) =>
      (List.range maxPagesEach).foldlM
        (fun (acc2 : List LinkItem) (p : Nat) =>
          match fetch cs.2 p with
          | .error e => Except.error e
          | .ok anchors => Except.ok (acc2 ++ scraperPageItems cs.1 anchors))
        acc)
    ([] : List LinkItem)).map dictDedup

example :
    dictDedup
      [ { category := "c1", title := "A", url := "u" },
        { category := "c2", title := "B", url := "u" } ]
      = [{ category := "c2", title := "B", url := "u" }] := by decide

example :
    dedupByUrl
      [ { category := "c1", title := "A", url := "u" },
        { category := "c2", title := "B", url := "u" } ]
      = [{ category := "c1", title := "A", url := "u" }] := by decide

/-! ### Content extraction

`extractor_wales.extract_metadata_and_text` and
`ingest_service/scraper.extract_article` both return
`(text, meta, is_pdf, is_junk, reason)`.  The HTTP response is
abstracted as an `HttpResponse`: the content-type header, the PDF
parse outcome (`none` when `PdfReader` raises, otherwise the per-page
extracted texts), and the parsed HTML document reduced to the data the
extractors read — the `<time datetime=...>` attribute, the texts of
the elements matched by each variant's selector list (after the
`decompose` of scripts/nav/etc.), and the first `<h1>` text.  A raised
request exception is `.error e` as before. -/

/-- The parsed HTML document as the extractors consume it.
`walesFragments` are the element texts matched by extractor_wales's
selector list (h1,h2,h3,p,li,div.field__item,div.field,div.content,
section); `scraperFragments` those matched by the ingest scraper's
list (h1,h2,h3,p,li); `h1text` the text of `main.find("h1")`;
`timeAttr` the `datetime` attribute of `soup.find("time")`. -/
structure HtmlDoc where
  timeAttr : Option String
  walesFragments : List String
  scraperFragments : List String
  h1text : Option String
deriving Repr, DecidableEq

/-- An HTTP response as the extractors consume it. -/
structure HttpResponse where
  contentType : Option String
  pdfPages : Option (List String)
  doc : HtmlDoc
deriving Repr, DecidableEq

/-- The metadata dict both extractors build for HTML pages. -/
structure ExtractMeta where
  published : Option String
  doc_type : Option String
  status : Option String
  topics : Option String
  organisations : Option String
  image_url : Option String
deriving Repr, DecidableEq

/-- The empty `{}` meta returned on the request-failure and PDF paths. -/
def emptyMeta : ExtractMeta :=
  { published := none, doc_type := none, status := none, topics := none,
    organisations := none, image_url := none }

/-- The HTML-path meta: `organisations` fixed to "Welsh Government",
`published` from a non-empty `datetime` attribute (stripped), the rest
`None`. -/
def htmlMeta (d : HtmlDoc) : ExtractMeta :=
  { published :=
      match d.timeAttr with
      | some s => if s = "" then none else some (stripStr s)
      | none => none,
    doc_type := none, status := none, topics := none,
    organisations := some "Welsh Government", image_url := none }

/-- The `(text, meta, is_pdf, is_junk, junk_reason)` tuple. -/
structure ExtractResult where
  text : String
  meta : ExtractMeta
  is_pdf : Bool
  is_junk : Bool
  junk_reason : Option String
deriving Repr, DecidableEq

/-- `"\n\n".join(parts)` on strings. -/
def joinParas : List String → String
  | [] => ""
  | [p] => p
  | p :: ps => p ++ "\n\n" ++ joinParas ps

/-- `"\n".join(parts)` on strings. -/
def joinLines : List String → String
  | [] => ""
  | [p] => p
  | p :: ps => p ++ "\n" ++ joinLines ps

/-- Whether a URL is routed to the PDF path: `"pdf" in ct or
url.lower().endswith(".pdf")`, with `ct` the lowered content-type
header (empty when absent). -/
def isPdfRoute (r : HttpResponse) (url : String) : Bool :=
  let ct := lowerStr (r.contentType.getD "")
  hasSub "pdf".data ct.data || endsWithL ".pdf".data (lowerStr url).data

/-- extractor_wales's HTML body text: clean each selected fragment,
keep the ones of length ≥ 20 (`if txt and len(txt) >= 20`), join with
blank lines and strip. -/
def walesText (r : HttpResponse) : String :=
  let parts := (r.doc.walesFragments.map cleanText).filter
    (fun t => t ≠ "" && decide (20 ≤ t.length))
  stripStr (joinParas parts)

/-- extractor_wales's lenient h1 carve-out: `h1` exists, its cleaned
text is non-empty and has length ≥ 8. -/
def walesH1Keeps (r : HttpResponse) : Bool :=
  match r.doc.h1text with
  | some h => cleanText h ≠ "" && decide (8 ≤ (cleanText h).length)
  | none => false

/-- `extractor_wales.extract_metadata_and_text` (also exported there as
`extract_article`). -/
def extractWales (fetched : Except String HttpResponse) (url : String) : ExtractResult :=
  match fetched with
  | .error e =>
    { text := "", meta := emptyMeta, is_pdf := false, is_junk := true,
      junk_reason := some ("request_failed:" ++ e) }
  | .ok r =>
    if isPdfRoute r url then
      match r.pdfPages with
      | none =>
        { text := "", meta := emptyMeta, is_pdf := true, is_junk := true,
          junk_reason := some "pdf_failed" }
      | some pages =>
        let text := cleanText (joinLines (pages.map cleanText))
        if text = "" then
          { text := "", meta := emptyMeta, is_pdf := true, is_junk := true,
            junk_reason := some "pdf_empty" }
        else
          { text := text, meta := emptyMeta, is_pdf := true, is_junk := false,
            junk_reason := none }
    else
      let meta := htmlMeta r.doc
      let text := walesText r
      if text.length < 80 then
        if walesH1Keeps r then
          { text := text, meta := meta, is_pdf := false, is_junk := false,
            junk_reason := none }
        else
          { text := text, meta := meta, is_pdf := false, is_junk := true,
            junk_reason := some "html_empty_or_too_small" }
      else
        { text := text, meta := meta, is_pdf := false, is_junk := false,
          junk_reason := none }

/-- ingest scraper's HTML body text: fragments of cleaned length ≥ 25
(`if txt and len(txt) >= 25`), joined with blank lines and stripped. -/
def scraperText (r : HttpResponse) : String :=
  let parts := (r.doc.scraperFragments.map cleanText).filter
    (fun t => t ≠ "" && decide (25 ≤ t.length))
  stripStr (joinParas parts)

/-- `ingest_service/scraper.extract_article`. -/
def extractScraper (fetched : Except String HttpResponse) (url : String) : ExtractResult :=
  match fetched with
  | .error e =>
    { text := "", meta := emptyMeta, is_pdf := false, is_junk := true,
      junk_reason := some ("request_failed:" ++ e) }
  | .ok r =>
    if isPdfRoute r url then
      { text := "", meta := emptyMeta, is_pdf := true, is_junk := true,
        junk_reason := some "pdf_skipped" }
    else
      let meta := htmlMeta r.doc
      let text := scraperText r
      if text.length < 250 then
        { text := text, meta := meta, is_pdf := false, is_junk := true,
          junk_reason := some "too_small" }
      else
        { text := text, meta := meta, is_pdf := false, is_junk := false,
          junk_reason := none }

/-! ### database.py

The `articles` table is modelled as a list of rows.  `url` is the
upsert key (`UNIQUE` in the schema).  The `created_at`/`updated_at`
timestamps are not modelled (wall-clock time).  Nullable `TEXT`
columns are `Option String`; booleans carry their schema defaults. -/

/-- One row of the `articles` table. -/
structure Article where
  id : Nat
  category : Option String
  title : Option String
  url : String
  published : Option String
  doc_type : Option String
  topics : Option String
  organisations : Option String
  status : Option String
  image_url : Option String
  raw_text : Option String
  is_pdf : Bool
  summary : Option String
  context : Option String
  translation : Option String
  translation_lang : Option String
  saved : Bool
  notes : Option String
  summary_feedback : Option String
deriving Repr, DecidableEq

/-- The insert payload of `upsert_article` (the 11 content fields the
docstring requires of `a`). -/
structure ArticleInput where
  category : Option String
  title : Option String
  url : String
  published : Option String
  doc_type : Option String
  topics : Option String
  organisations : Option String
  status : Option String
  image_url : Option String
  raw_text : Option String
  is_pdf : Bool
deriving Repr, DecidableEq

/-- A fresh `BIGSERIAL` id: one more than the largest id in use. -/
def freshId (db : List Article) : Nat :=
  db.foldl (fun m r => max m (r.id + 1)) 1

/-- The `DO UPDATE SET` clause of `upsert_article`: overwrite exactly
the 11 content columns of the conflicting row, leaving `summary`,
`context`, `translation`, `translation_lang`, `saved`, `notes` and
`summary_feedback` (and `id`) untouched. -/
def applyUpsertUpdate (a : ArticleInput) (r : Article) : Article :=
  { r with
    category := a.category, title := a.title, published := a.published,
    doc_type := a.doc_type, topics := a.topics,
    organisations := a.organisations, status := a.status,
    image_url := a.image_url, raw_text := a.raw_text, is_pdf := a.is_pdf }

/-- A newly inserted row: content columns from the payload, the
user/AI columns at their schema defaults (`NULL`, `saved FALSE`). -/
def newArticleRow (db : List Article) (a : ArticleInput) : Article :=
  { id := freshId db,
    category := a.category, title := a.title, url := a.url,
    published := a.published, doc_type := a.doc_type, topics := a.topics,
    organisations := a.organisations, status := a.status,
    image_url := a.image_url, raw_text := a.raw_text, is_pdf := a.is_pdf,
    summary := none, context := none, translation := none,
    translation_lang := none, saved := false, notes := none,
    summary_feedback := none }

/-- `database.upsert_article`: `INSERT ... ON CONFLICT (url) DO UPDATE
SET <content columns> = EXCLUDED.<...>`.  A conflicting `url` updates
the existing row in place; otherwise a new row is appended. -/
def upsertArticle (db : List Article) (a : ArticleInput) : List Article :=
  if db.any (fun r => r.url = a.url) then
    db.map (fun r => if r.url = a.url then applyUpsertUpdate a r else r)
  else db ++ [newArticleRow db a]

/-- The allowed field names of `database.update_text`. -/
def allowedFields : List String :=
  ["summary", "context", "translation", "notes", "summary_feedback"]

/-- The single-row `UPDATE` of `update_text` for an allowed field:
`translation` also writes `translation_lang`; the other four set just
their own column. -/
def applyTextField (field value : String) (translationLang : Option String)
    (r : Article) : Article :=
  if field = "translation" then
    { r with translation := some value, translation_lang := translationLang }
  else if field = "summary" then { r with summary := some value }
  else if field = "context" then { r with context := some value }
  else if field = "notes" then { r with notes := some value }
  else { r with summary_feedback := some value }

/-- `database.update_text`: reject a field outside the allow-set with
`ValueError("Invalid field")` before touching the store (modelled as
`.error`, returning no store at all); otherwise update the row with
the given id. -/
def updateText (db : List Article) (articleId : Nat) (field value : String)
    (translationLang : Option String) : Except String (List Article) :=
  if !(allowedFields.contains field) then Except.error "Invalid field"
  else
    Except.ok (db.map (fun r =>
      if r.id = articleId then applyTextField field value translationLang r else r))

/-! ### ingest_service/main.py run_ingest_once -/

/-- The counters (and final store) returned by `run_ingest_once`. -/
structure IngestOutcome where
  kept : Nat
  skipped : Nat
  total_links : Nat
  store : List Article
deriving Repr, DecidableEq

/-- The article dict `run_ingest_once` builds for a non-junk
extraction: category/title/url from the link item, the metadata
fields, `organisations` defaulted to "Welsh Government" when the meta
value is missing or empty (Python `or`), the extracted text and the
pdf flag. -/
def articleOfExtraction (item : LinkItem) (res : ExtractResult) : ArticleInput :=
  { category := some item.category, title := some item.title, url := item.url,
    published := res.meta.published, doc_type := res.meta.doc_type,
    topics := res.meta.topics,
    organisations :=
      some (match res.meta.organisations with
            | some s => if s = "" then "Welsh Government" else s
            | none => "Welsh Government"),
    status := res.meta.status, image_url := res.meta.image_url,
    raw_text := some res.text, is_pdf := res.is_pdf }

/-- The per-link loop of `run_ingest_once`: a junk extraction
increments `skipped`; otherwise the article is upserted and `kept` is
incremented. -/
def ingestLoop (fetchArticle : String → Except String HttpResponse)
    (links : List LinkItem) (kept skipped : Nat) (db : List Article) :
    Nat × Nat × List Article :=
  match links with
  | [] => (kept, skipped, db)
  | item :: rest =>
    let res := extractScraper (fetchArticle item.url) item.url
    if res.is_junk then ingestLoop fetchArticle rest kept (skipped + 1) db
    else ingestLoop fetchArticle rest (kept + 1) skipped
      (upsertArticle db (articleOfExtraction item res))

/-- `ingest_service/main.run_ingest_once`: collect the links (an
exception in `collect_links` propagates), process each link, and
return `{"kept", "skipped", "total_links": len(links)}` together with
the final store. -/
def runIngestOnce (fetchListing : String → Nat → Except String (List Anchor))
    (fetchArticle : String → Except String HttpResponse)
    (db : List Article) (maxPagesEach : Nat) : Except String IngestOutcome :=
  match scraperCollectLinks fetchListing maxPagesEach with
  | .error e => Except.error e
  | .ok links =>
    let r := ingestLoop fetchArticle links 0 0 db
    Except.ok { kept := r.1, skipped := r.2.1, total_links := links.length,
                store := r.2.2 }

/-! ### Dedup lemmas -/

/-- The seen-set dedup yields a sublist of its input (so it preserves
input order and keeps only actual input entries). -/
theorem dedupSeenAux_sublist (l : List LinkItem) :
    ∀ seen, List.Sublist (dedupSeenAux seen l) l := by
  induction l with
  | nil => intro seen; simp [dedupSeenAux]
  | cons x xs ih =>
    intro seen
    by_cases h : seen.contains x.url
    · simp only [dedupSeenAux, if_pos h]
      exact (ih seen).cons x
    · simp only [dedupSeenAux, if_neg h]
      exact (ih (x.url :: seen)).cons₂ x

/-- URLs already in the seen set never appear in the output. -/
theorem dedupSeenAux_not_seen (l : List LinkItem) :
    ∀ seen y, y ∈ dedupSeenAux seen l → seen.contains y.url = false := by
  induction l with
  | nil => intro seen y hy; simp [dedupSeenAux] at hy
  | cons x xs ih =>
    intro seen y hy
    by_cases h : seen.contains x.url
    · rw [dedupSeenAux, if_pos h] at hy
      exact ih seen y hy
    · rw [dedupSeenAux, if_neg h] at hy
      rcases List.mem_cons.mp hy with rfl | hy'
      · simpa using h
      · have := ih (x.url :: seen) y hy'
        simp only [List.contains_cons, Bool.or_eq_false_iff] at this
        exact this.2

/-- The output of the seen-set dedup has pairwise distinct URLs. -/
theorem dedupSeenAux_pairwise (l : List LinkItem) :
    ∀ seen, (dedupSeenAux seen l).Pairwise (fun a b => a.url ≠ b.url) := by
  induction l with
  | nil => intro seen; simp [dedupSeenAux]
  | cons x xs ih =>
    intro seen
    by_cases h : seen.contains x.url
    · rw [dedupSeenAux, if_pos h]; exact ih seen
    · rw [dedupSeenAux, if_neg h]
      refine List.pairwise_cons.mpr ⟨?_, ih (x.url :: seen)⟩
      intro y hy
      have := dedupSeenAux_not_seen xs (x.url :: seen) y hy
      simp only [List.contains_cons, Bool.or_eq_false_iff] at this
      intro hxy
      have := this.1
      simp [hxy] at this

/-- Every output entry of the seen-set dedup is the *first* input
entry carrying its URL. -/
theorem dedupSeenAux_first (l : List LinkItem) :
    ∀ seen y, y ∈ dedupSeenAux seen l →
      l.find? (fun x => x.url = y.url) = some y := by
  induction l with
  | nil => intro seen y hy; simp [dedupSeenAux] at hy
  | cons x xs ih =>
    intro seen y hy
    by_cases h : seen.contains x.url
    · rw [dedupSeenAux, if_pos h] at hy
      have hne : x.url ≠ y.url := by
        have hy' := dedupSeenAux_not_seen xs seen y hy
        intro hxy
        rw [hxy] at h
        rw [hy'] at h
        exact Bool.false_ne_true h
      rw [List.find?_cons_of_neg _ (by simpa using hne)]
      exact ih seen y hy
    · rw [dedupSeenAux, if_neg h] at hy
      rcases List.mem_cons.mp hy with rfl | hy'
      · rw [List.find?_cons_of_pos _ (by simp)]
      · have hy'' := dedupSeenAux_not_seen xs (x.url :: seen) y hy'
        simp only [List.contains_cons, Bool.or_eq_false_iff, beq_eq_false_iff_ne,
          ne_eq] at hy''
        have hne : x.url ≠ y.url := fun hxy => hy''.1 hxy.symm
        rw [List.find?_cons_of_neg _ (by simpa using hne)]
        exact ih (x.url :: seen) y hy'

/-- Every input URL not already seen is represented in the output. -/
theorem dedupSeenAux_covers (l : List LinkItem) :
    ∀ seen x, x ∈ l → seen.contains x.url = false →
      ∃ y ∈ dedupSeenAux seen l, y.url = x.url := by
  induction l with
  | nil => intro seen x hx; simp at hx
  | cons z zs ih =>
    intro seen x hx hseen
    by_cases h : seen.contains z.url
    · rw [dedupSeenAux, if_pos h]
      rcases List.mem_cons.mp hx with rfl | hx'
      · rw [hseen] at h; exact absurd h (Bool.false_ne_true)
      · exact ih seen x hx' hseen
    · rw [dedupSeenAux, if_neg h]
      by_cases hzx : x.url = z.url
      · exact ⟨z, List.mem_cons_self z _, hzx.symm⟩
      · rcases List.mem_cons.mp hx with rfl | hx'
        · exact absurd rfl hzx
        · have hseen' : (z.url :: seen).contains x.url = false := by
            simp only [List.contains_cons, Bool.or_eq_false_iff,
              beq_eq_false_iff_ne, ne_eq]
            exact ⟨hzx, by simpa using hseen⟩
          obtain ⟨y, hy, hyx⟩ := ih (z.url :: seen) x hx' hseen'
          exact ⟨y, List.mem_cons_of_mem z hy, hyx⟩

/-- The seen set only matters through membership. -/
theorem dedupSeenAux_congr (l : List LinkItem) :
    ∀ seen₁ seen₂, (∀ u, seen₁.contains u = seen₂.contains u) →
      dedupSeenAux seen₁ l = dedupSeenAux seen₂ l := by
  induction l with
  | nil => intro _ _ _; rfl
  | cons x xs ih =>
    intro seen₁ seen₂ hmem
    rw [dedupSeenAux, dedupSeenAux, hmem x.url]
    by_cases h : seen₂.contains x.url
    · rw [if_pos h, if_pos h]; exact ih seen₁ seen₂ hmem
    · rw [if_neg h, if_neg h]
      rw [ih (x.url :: seen₁) (x.url :: seen₂)
        (fun u => by simp only [List.contains_cons]; rw [hmem u])]

/-- The *last* entry of `l` whose URL is `u` (defaulting to `v` when
`u` does not occur). -/
def lastOcc (v : LinkItem) (u : String) (l : List LinkItem) : LinkItem :=
  match l.reverse.find? (fun x => x.url = u) with
  | some r => r
  | none => v

/-- Prepending an entry updates the default of `lastOcc`. -/
theorem lastOcc_cons (v : LinkItem) (u : String) (r : LinkItem) (l : List LinkItem) :
    lastOcc v u (r :: l) = lastOcc (if r.url = u then r else v) u l := by
  rw [lastOcc, lastOcc, List.reverse_cons, List.find?_append]
  cases h : l.reverse.find? (fun x => decide (x.url = u)) with
  | some x => rfl
  | none =>
    by_cases hr : r.url = u
    · simp [List.find?, hr]
    · simp [List.find?, hr]


/-- Membership in the key list of an association list, phrased as the
`any` test `dictAssign` performs. -/
theorem keys_contains_eq (m : List (String × LinkItem)) (u : String) :
    (m.map (fun p => p.1)).contains u = m.any (fun p => decide (p.1 = u)) := by
  induction m with
  | nil => rfl
  | cons p m ih =>
    have hbeq : (u == p.1) = decide (p.1 = u) := by
      by_cases h : u = p.1
      · simp [h]
      · simp [h, Ne.symm h]
    simp only [List.map_cons, List.contains_cons, List.any_cons, ih, hbeq]

/-- Appending a key at the end tests like consing it at the front. -/
theorem seenSnoc_contains (s : List String) (x u : String) :
    (s ++ [x]).contains u = (x :: s).contains u := by
  induction s with
  | nil => rfl
  | cons a s ih =>
    simp only [List.cons_append, List.contains_cons, ih, Bool.or_left_comm]

/-- Characterization of the Python-dict left fold: the final dict maps
the accumulator keys and then the first-seen new URLs, each key bound
to the *last* input entry with that URL. -/
theorem dictFold_char (l : List LinkItem) :
    ∀ m : List (String × LinkItem),
      l.foldl (fun m r => dictAssign m r.url r) m
        = m.map (fun p => (p.1, lastOcc p.2 p.1 l))
          ++ (dedupSeenAux (m.map (fun p => p.1)) l).map
              (fun y => (y.url, lastOcc y y.url l)) := by
  induction l with
  | nil =>
    intro m
    simp [dedupSeenAux, lastOcc]
  | cons r l ih =>
    intro m
    rw [List.foldl_cons]
    by_cases h : m.any (fun p => decide (p.1 = r.url))
    · have hassign : dictAssign m r.url r
          = m.map (fun p => if p.1 = r.url then (r.url, r) else p) := by
        rw [dictAssign, if_pos h]
      have hkeys : (m.map (fun p => if p.1 = r.url then (r.url, r) else p)).map
          (fun p => p.1) = m.map (fun p => p.1) := by
        rw [List.map_map]
        refine List.map_congr_left (fun p _ => ?_)
        by_cases hp : p.1 = r.url
        · simp [hp]
        · simp [hp]
      have hseen : (m.map (fun p => p.1)).contains r.url = true := by
        rw [keys_contains_eq]; exact h
      rw [hassign, ih, hkeys]
      rw [dedupSeenAux, if_pos hseen]
      congr 1
      · rw [List.map_map]
        refine List.map_congr_left (fun p _ => ?_)
        by_cases hp : p.1 = r.url
        · simp [Function.comp, hp, lastOcc_cons]
        · have hru : r.url ≠ p.1 := fun hru => hp hru.symm
          simp [Function.comp, hp, lastOcc_cons, hru]
      · refine List.map_congr_left (fun y hy => ?_)
        have hnot := dedupSeenAux_not_seen l (m.map (fun p => p.1)) y hy
        have hne : r.url ≠ y.url := by
          intro hru
          rw [← hru] at hnot
          rw [hnot] at hseen
          exact Bool.false_ne_true hseen
        rw [lastOcc_cons, if_neg hne]
    · have hassign : dictAssign m r.url r = m ++ [(r.url, r)] := by
        rw [dictAssign, if_neg h]
      have hmne : ∀ p ∈ m, p.1 ≠ r.url := by
        intro p hp hpr
        apply h
        rw [List.any_eq_true]
        exact ⟨p, hp, by simpa using hpr⟩
      have hseen : (m.map (fun p => p.1)).contains r.url = false := by
        rw [keys_contains_eq]; exact (Bool.not_eq_true _) ▸ h
      have hkeys : (m ++ [(r.url, r)]).map (fun p => p.1)
          = m.map (fun p => p.1) ++ [r.url] := by simp
      have hcongr : dedupSeenAux (m.map (fun p => p.1) ++ [r.url]) l
          = dedupSeenAux (r.url :: m.map (fun p => p.1)) l := by
        refine dedupSeenAux_congr l _ _ (fun u => ?_)
        exact seenSnoc_contains _ _ _
      rw [hassign, ih, hkeys, hcongr]
      rw [dedupSeenAux, if_neg (by rw [hseen]; exact Bool.false_ne_true)]
      simp only [List.map_append, List.map_cons, List.map_nil, List.append_assoc,
        List.cons_append, List.nil_append]
      congr 1
      · refine List.map_congr_left (fun p hp => ?_)
        have hne : r.url ≠ p.1 := fun hru => hmne p hp hru.symm
        rw [lastOcc_cons, if_neg hne]
      · congr 1
        · simp [lastOcc_cons]
        · refine List.map_congr_left (fun y hy => ?_)
          have hnot := dedupSeenAux_not_seen l _ y hy
          simp only [List.contains_cons, Bool.or_eq_false_iff,
            beq_eq_false_iff_ne, ne_eq] at hnot
          have hne : r.url ≠ y.url := fun hru => hnot.1 hru.symm
          rw [lastOcc_cons, if_neg hne]

/-- `dictDedup` is the first-seen URL dedup with each slot filled by
the *last* input entry carrying that URL. -/
theorem dictDedup_char (l : List LinkItem) :
    dictDedup l = (dedupByUrl l).map (fun y => lastOcc y y.url l) := by
  rw [dictDedup, dictFold_char l [], dedupByUrl]
  simp [List.map_map, Function.comp]

/-- `lastOcc` returns an entry with the requested URL whenever the
default has it. -/
theorem lastOcc_url (v : LinkItem) (u : String) (l : List LinkItem)
    (hv : v.url = u) : (lastOcc v u l).url = u := by
  rw [lastOcc]
  cases h : l.reverse.find? (fun x => decide (x.url = u)) with
  | some r => simpa using List.find?_some h
  | none => exact hv

/-- The dict dedup keeps pairwise distinct URLs. -/
theorem dictDedup_pairwise (l : List LinkItem) :
    (dictDedup l).Pairwise (fun a b => a.url ≠ b.url) := by
  rw [dictDedup_char, List.pairwise_map]
  refine (dedupSeenAux_pairwise l []).imp ?_
  intro a b hab
  rw [lastOcc_url a a.url l rfl, lastOcc_url b b.url l rfl]
  exact hab

/-- Every entry of the dict dedup is the *last* input entry with its
URL. -/
theorem dictDedup_last (l : List LinkItem) (y : LinkItem) (hy : y ∈ dictDedup l) :
    l.reverse.find? (fun x => x.url = y.url) = some y := by
  rw [dictDedup_char] at hy
  obtain ⟨z, hz, rfl⟩ := List.mem_map.mp hy
  have hzl : z ∈ l := (dedupSeenAux_sublist l []).subset hz
  have hsome : (l.reverse.find? (fun x => decide (x.url = z.url))).isSome := by
    rw [List.find?_isSome]
    exact ⟨z, List.mem_reverse.mpr hzl, by simp⟩
  obtain ⟨w, hw⟩ := Option.isSome_iff_exists.mp hsome
  have hlast : lastOcc z z.url l = w := by rw [lastOcc, hw]
  have hwurl : (lastOcc z z.url l).url = z.url := lastOcc_url z z.url l rfl
  rw [hlast] at hwurl ⊢
  rw [hwurl]
  exact hw

/-- A fetch function that serves the same article URL under every
category's listing page (used to exhibit cross-category duplication in
`fetch_wales_links`). -/
def dupFetch : String → Nat → Except String (List Anchor) :=
  fun _ p =>
    if p = 0 then Except.ok [{ href := "/x", text := "Duplicated story title" }]
    else Except.ok []

/-- A fetch function for which the first listing page raises while a
page of another category succeeds with a real candidate. -/
def oneFailFetch : String → Nat → Except String (List Anchor) :=
  fun path _ =>
    if path = "/announcements" then Except.error "boom"
    else Except.ok [{ href := "/good-article", text := "A perfectly fine article title" }]

/-- A fetch function whose single listing page lists the same URL
twice with different titles. -/
def dupTitleFetch : String → Nat → Except String (List Anchor) :=
  fun path p =>
    if path = "/announcements" && p = 0 then
      Except.ok
        [ { href := "/x", text := "First title of the story" },
          { href := "/x", text := "Second title of the story" } ]
    else Except.ok []

/-- The page loop of `_collect_from_listing` is a concatenation over
pages, failed pages contributing nothing. -/
theorem collectFromListing_eq (fetch : String → Nat → Except String (List Anchor))
    (categoryName slug : String) (maxPages : Nat) :
    collectFromListing fetch categoryName slug maxPages
      = dedupByUrl ((List.range maxPages).flatMap
          (fun p =>
            match fetch slug p with
            | .error _ => []
            | .ok anchors => walesPageItems categoryName slug anchors)) := by
  rw [collectFromListing]
  congr 1
  have hstep :
      (fun (acc : List LinkItem) (p : Nat) =>
        match fetch slug p with
        | .error _ => acc
        | .ok anchors => acc ++ walesPageItems categoryName slug anchors)
      = (fun acc p => acc ++
          (match fetch slug p with
           | .error _ => []
           | .ok anchors => walesPageItems categoryName slug anchors)) := by
    funext acc p
    cases fetch slug p with
    | error e => simp
    | ok anchors => rfl
  rw [hstep]
  have hfold : ∀ (ps : List Nat) (init : List LinkItem),
      ps.foldl (fun acc p => acc ++
        (match fetch slug p with
         | .error _ => []
         | .ok anchors => walesPageItems categoryName slug anchors)) init
      = init ++ ps.flatMap (fun p =>
          match fetch slug p with
          | .error _ => []
          | .ok anchors => walesPageItems categoryName slug anchors) := by
    intro ps
    induction ps with
    | nil => intro init; simp
    | cons q qs ih =>
      intro init
      simp [List.foldl_cons, List.flatMap_cons, ih, List.append_assoc]
  simpa using hfold (List.range maxPages) []

/-- C1 counterexample: in ingest_service's `collect_links` (and in
extractor_wales's dict comprehension, which has identical semantics),
a URL listed twice with different titles keeps the **last**-seen
title, not the first-seen one: on a listing page whose anchors are
("/x", "First title of the story") then ("/x", "Second title of the
story"), the collector returns the single candidate with the second
title, while the claim requires the first. -/
theorem C1_counterexample :
    scraperCollectLinks dupTitleFetch 1
      = Except.ok [{ category := "Announcements",
                     title := "Second title of the story",
                     url := "https://www.gov.wales/x" }]
    ∧ ("Second title of the story" : String) ≠ "First title of the story" := by
  constructor
  · rfl
  · decide

/-- C1 (amended): every single collection pass deduplicates to exactly
one entry per distinct URL in first-seen URL order; the seen-set dedup
of collector_wales keeps the first-seen occurrence (an actual input
entry, in input order, and exactly the first entry with its URL),
while the dict-based `collect_links` variants keep, in each first-seen
URL slot, the **last**-seen occurrence (its category and title);
moreover `fetch_wales_links` deduplicates only within each category,
so the same URL can yield one candidate per category across a run. -/
theorem C1_dedup_amended (items : List LinkItem) :
    (List.Sublist (dedupByUrl items) items
      ∧ (dedupByUrl items).Pairwise (fun a b => a.url ≠ b.url)
      ∧ (∀ x ∈ items, ∃ y ∈ dedupByUrl items, y.url = x.url)
      ∧ (∀ y ∈ dedupByUrl items, items.find? (fun x => x.url = y.url) = some y))
    ∧ (dictDedup items = (dedupByUrl items).map (fun y => lastOcc y y.url items)
      ∧ (dictDedup items).Pairwise (fun a b => a.url ≠ b.url)
      ∧ (∀ y ∈ dictDedup items,
          items.reverse.find? (fun x => x.url = y.url) = some y))
    ∧ (∃ i j, i ∈ fetchWalesLinks dupFetch 1 ∧ j ∈ fetchWalesLinks dupFetch 1
        ∧ i ≠ j ∧ i.url = j.url) := by
  refine ⟨⟨dedupSeenAux_sublist items [], dedupSeenAux_pairwise items [], ?_, ?_⟩,
    ⟨dictDedup_char items, dictDedup_pairwise items, dictDedup_last items⟩, ?_⟩
  · intro x hx
    exact dedupSeenAux_covers items [] x hx rfl
  · intro y hy
    exact dedupSeenAux_first items [] y hy
  · refine ⟨{ category := "Announcements", title := "Duplicated story title",
              url := "https://www.gov.wales/x" },
            { category := "Consultations", title := "Duplicated story title",
              url := "https://www.gov.wales/x" }, ?_, ?_, ?_, ?_⟩
    · decide
    · decide
    · decide
    · decide

/-- Witness for C1 (amended) at a concrete duplicated-URL input. -/
theorem C1_dedup_amended_witness :
    ∃ y ∈ dedupByUrl
      [ { category := "c1", title := "A", url := "u" },
        { category := "c2", title := "B", url := "u" } ],
      y.url = ({ category := "c1", title := "A", url := "u" } : LinkItem).url :=
  (C1_dedup_amended _).1.2.2.1
    { category := "c1", title := "A", url := "u" } (by decide)

/-- C7 counterexample: in ingest_service's `collect_links` a single
failed listing-page fetch is **not** skipped — the exception
propagates and aborts the whole collection, returning no candidates
even though another category's page was reachable and carried a valid
candidate. -/
theorem C7_counterexample :
    scraperCollectLinks oneFailFetch 1 = Except.error "boom"
    ∧ oneFailFetch "/consultations" 0
        = Except.ok [{ href := "/good-article",
                       text := "A perfectly fine article title" }]
    ∧ scraperPageItems "Consultations"
        [{ href := "/good-article", text := "A perfectly fine article title" }]
        = [{ category := "Consultations",
             title := "A perfectly fine article title",
             url := "https://www.gov.wales/good-article" }] := by
  refine ⟨rfl, rfl, ?_⟩
  decide

/-- C7 (amended): collector_wales's `_collect_from_listing` skips a
failed listing page and continues — its result is exactly the dedup of
the successfully fetched pages' candidates, and every candidate of
every reachable page is still represented (by URL) in the result.  The
ingest_service `collect_links` instead propagates a single page
failure (see the counterexample). -/
theorem C7_partial_failure_amended
    (fetch : String → Nat → Except String (List Anchor))
    (categoryName slug : String) (maxPages p : Nat)
    (anchors : List Anchor) (item : LinkItem)
    (hp : p < maxPages) (hfetch : fetch slug p = Except.ok anchors)
    (hitem : item ∈ walesPageItems categoryName slug anchors) :
    ∃ y ∈ collectFromListing fetch categoryName slug maxPages,
      y.url = item.url := by
  rw [collectFromListing_eq]
  have hmem : item ∈ (List.range maxPages).flatMap
      (fun q =>
        match fetch slug q with
        | .error _ => []
        | .ok anchors => walesPageItems categoryName slug anchors) := by
    rw [List.mem_flatMap]
    refine ⟨p, List.mem_range.mpr hp, ?_⟩
    rw [hfetch]
    exact hitem
  exact dedupSeenAux_covers _ [] item hmem rfl

/-- Witness for C7 (amended): a concrete fetch with a failing page 0
and a successful page 1 still yields the page-1 candidate. -/
theorem C7_partial_failure_amended_witness :
    ∃ y ∈ collectFromListing
        (fun _ p => if p = 0 then Except.error "down"
          else Except.ok [{ href := "/kept", text := "Kept article" }])
        "Announcements" "announcements" 2,
      y.url = ({ category := "Announcements", title := "Kept article",
                 url := "https://www.gov.wales/kept" } : LinkItem).url :=
  C7_partial_failure_amended
    (fun _ p => if p = 0 then Except.error "down"
      else Except.ok [{ href := "/kept", text := "Kept article" }])
    "Announcements" "announcements" 2 1
    [{ href := "/kept", text := "Kept article" }]
    { category := "Announcements", title := "Kept article",
      url := "https://www.gov.wales/kept" }
    (by decide) rfl (by decide)

/-- Each link increments exactly one of the two counters. -/
theorem ingestLoop_counts (fetchArticle : String → Except String HttpResponse)
    (links : List LinkItem) :
    ∀ kept skipped db,
      (ingestLoop fetchArticle links kept skipped db).1
        + (ingestLoop fetchArticle links kept skipped db).2.1
      = kept + skipped + links.length := by
  induction links with
  | nil => intro kept skipped db; simp [ingestLoop]
  | cons item rest ih =>
    intro kept skipped db
    rw [ingestLoop]
    by_cases h : (extractScraper (fetchArticle item.url) item.url).is_junk
    · rw [if_pos h]
      rw [ih]
      simp only [List.length_cons]
      omega
    · rw [if_neg h]
      rw [ih]
      simp only [List.length_cons]
      omega

/-- A successful collection is always a dict-dedup of the raw items. -/
theorem scraperCollectLinks_ok (fetch : String → Nat → Except String (List Anchor))
    (n : Nat) (links : List LinkItem)
    (h : scraperCollectLinks fetch n = Except.ok links) :
    ∃ raw, links = dictDedup raw := by
  rw [scraperCollectLinks] at h
  cases hfold : SCRAPER_CATEGORIES.foldlM
      (fun (acc : List LinkItem) (cs : String × String) =>
        (List.range n).foldlM
          (fun (acc2 : List LinkItem) (p : Nat) =>
            match fetch cs.2 p with
            | .error e => Except.error e
            | .ok anchors => Except.ok (acc2 ++ scraperPageItems cs.1 anchors))
          acc)
      ([] : List LinkItem) with
  | error e => rw [hfold] at h; exact absurd h (by simp [Except.map])
  | ok raw =>
    rw [hfold] at h
    refine ⟨raw, ?_⟩
    simpa [Except.map] using h.symm

/-- C10: whenever `run_ingest_once` completes normally, every
collected link was counted exactly once (`kept + skipped =
total_links`), and `total_links` is the length of the deduplicated
link list returned by `collect_links` (whose URLs are pairwise
distinct). -/
theorem C10_counters (fetchListing : String → Nat → Except String (List Anchor))
    (fetchArticle : String → Except String HttpResponse)
    (db : List Article) (n : Nat) (result : IngestOutcome)
    (h : runIngestOnce fetchListing fetchArticle db n = Except.ok result) :
    result.kept + result.skipped = result.total_links
    ∧ ∃ links, scraperCollectLinks fetchListing n = Except.ok links
        ∧ result.total_links = links.length
        ∧ (links.map (fun y => y.url)).Pairwise (fun a b => a ≠ b) := by
  rw [runIngestOnce] at h
  cases hcol : scraperCollectLinks fetchListing n with
  | error e => rw [hcol] at h; exact absurd h (by simp)
  | ok links =>
    rw [hcol] at h
    set L := ingestLoop fetchArticle links 0 0 db with hL
    have hres :
        result = { kept := L.1, skipped := L.2.1, total_links := links.length, store := L.2.2 } := by
      cases h
      rfl
    obtain ⟨raw, hraw⟩ := scraperCollectLinks_ok fetchListing n links hcol
    refine ⟨?_, links, rfl, by rw [hres], ?_⟩
    · rw [hres]
      simpa using ingestLoop_counts fetchArticle links 0 0 db
    · rw [hraw, List.pairwise_map]
      exact dictDedup_pairwise raw

/-- Witness for C10 at a run whose collection returns no links. -/
theorem C10_counters_witness :
    ({ kept := 0, skipped := 0, total_links := 0, store := [] } : IngestOutcome).kept
      + ({ kept := 0, skipped := 0, total_links := 0, store := [] } : IngestOutcome).skipped
    = ({ kept := 0, skipped := 0, total_links := 0, store := [] } : IngestOutcome).total_links :=
  (C10_counters (fun _ _ => Except.ok []) (fun _ => Except.error "offline") [] 1
    { kept := 0, skipped := 0, total_links := 0, store := [] } rfl).1

/-- C2: re-upserting an already-present URL overwrites exactly the
content fields of that row (category, title, published, doc_type,
topics, organisations, status, image_url, raw_text, is_pdf) and leaves
the user- and AI-derived fields (summary, context, translation,
translation_lang, saved, notes, summary_feedback) — and its id, its
url, and every other row — exactly as they were, inserting no new
row. -/
theorem C2_upsert_preserves (db : List Article) (a : ArticleInput) (r : Article)
    (h : db.find? (fun x => x.url = a.url) = some r) :
    (upsertArticle db a).length = db.length
    ∧ (upsertArticle db a).find? (fun x => x.url = a.url)
        = some (applyUpsertUpdate a r)
    ∧ (applyUpsertUpdate a r).summary = r.summary
    ∧ (applyUpsertUpdate a r).context = r.context
    ∧ (applyUpsertUpdate a r).translation = r.translation
    ∧ (applyUpsertUpdate a r).translation_lang = r.translation_lang
    ∧ (applyUpsertUpdate a r).saved = r.saved
    ∧ (applyUpsertUpdate a r).notes = r.notes
    ∧ (applyUpsertUpdate a r).summary_feedback = r.summary_feedback
    ∧ (applyUpsertUpdate a r).id = r.id
    ∧ (applyUpsertUpdate a r).url = r.url
    ∧ (applyUpsertUpdate a r).category = a.category
    ∧ (applyUpsertUpdate a r).title = a.title
    ∧ (applyUpsertUpdate a r).published = a.published
    ∧ (applyUpsertUpdate a r).doc_type = a.doc_type
    ∧ (applyUpsertUpdate a r).topics = a.topics
    ∧ (applyUpsertUpdate a r).organisations = a.organisations
    ∧ (applyUpsertUpdate a r).status = a.status
    ∧ (applyUpsertUpdate a r).image_url = a.image_url
    ∧ (applyUpsertUpdate a r).raw_text = a.raw_text
    ∧ (applyUpsertUpdate a r).is_pdf = a.is_pdf
    ∧ (∀ x ∈ db, x.url ≠ a.url → x ∈ upsertArticle db a) := by
  have hany : db.any (fun x => x.url = a.url) = true := by
    rw [List.any_eq_true]
    exact ⟨r, List.mem_of_find?_eq_some h,
      List.find?_some (p := fun (x : Article) => decide (x.url = a.url)) h⟩
  have hupsert : upsertArticle db a
      = db.map (fun x => if x.url = a.url then applyUpsertUpdate a x else x) := by
    rw [upsertArticle, if_pos hany]
  have hrurl : r.url = a.url := by
    have := List.find?_some (p := fun (x : Article) => decide (x.url = a.url)) h
    simpa using this
  refine ⟨?_, ?_, rfl, rfl, rfl, rfl, rfl, rfl, rfl, rfl, rfl, rfl, rfl, rfl,
    rfl, rfl, rfl, rfl, rfl, rfl, rfl, ?_⟩
  · rw [hupsert, List.length_map]
  · rw [hupsert, List.find?_map]
    have hpf : ((fun x => decide (x.url = a.url))
          ∘ (fun x => if x.url = a.url then applyUpsertUpdate a x else x))
        = (fun x => decide (x.url = a.url)) := by
      funext x
      by_cases hx : x.url = a.url
      · simp only [Function.comp, if_pos hx]
        have : (applyUpsertUpdate a x).url = x.url := rfl
        rw [this]
      · simp only [Function.comp, if_neg hx]
    rw [hpf, h]
    simp [hrurl]
  · intro x hx hxne
    rw [hupsert]
    exact List.mem_map.mpr ⟨x, hx, by rw [if_neg hxne]⟩

/-- Witness for C2 at a one-row store holding user data. -/
theorem C2_upsert_preserves_witness :
    (upsertArticle
      [{ id := 1, category := some "Announcements", title := some "Old title",
         url := "https://example.org/a", published := none, doc_type := none,
         topics := none, organisations := some "Welsh Government", status := none,
         image_url := none, raw_text := some "old text", is_pdf := false,
         summary := some "my summary", context := none, translation := none,
         translation_lang := none, saved := true, notes := some "keep",
         summary_feedback := none }]
      { category := some "Announcements", title := some "New title",
        url := "https://example.org/a", published := none, doc_type := none,
        topics := none, organisations := some "Welsh Government", status := none,
        image_url := none, raw_text := some "new text", is_pdf := false }).length
    = 1 :=
  (C2_upsert_preserves _ _
    { id := 1, category := some "Announcements", title := some "Old title",
      url := "https://example.org/a", published := none, doc_type := none,
      topics := none, organisations := some "Welsh Government", status := none,
      image_url := none, raw_text := some "old text", is_pdf := false,
      summary := some "my summary", context := none, translation := none,
      translation_lang := none, saved := true, notes := some "keep",
      summary_feedback := none }
    (by decide)).1

/-- C8: the Store's field update succeeds exactly for the five allowed
field names, fails with the invalid-field error (returning no store,
hence writing nothing) on every other name, and for `translation` also
writes `translation_lang` on the targeted row. -/
theorem C8_update_text (db : List Article) (articleId : Nat)
    (field value : String) (translationLang : Option String) :
    ((∃ db', updateText db articleId field value translationLang = Except.ok db')
      ↔ field ∈ allowedFields)
    ∧ (field ∉ allowedFields →
        updateText db articleId field value translationLang
          = Except.error "Invalid field")
    ∧ (field = "translation" →
        updateText db articleId field value translationLang
          = Except.ok (db.map (fun r =>
              if r.id = articleId then
                { r with translation := some value,
                         translation_lang := translationLang }
              else r))) := by
  by_cases hf : field ∈ allowedFields
  · have hcon : allowedFields.contains field = true := by
      rw [List.contains_eq_any_beq, List.any_eq_true]
      exact ⟨field, hf, by simp⟩
    have hok : updateText db articleId field value translationLang
        = Except.ok (db.map (fun r =>
            if r.id = articleId then applyTextField field value translationLang r
            else r)) := by
      rw [updateText, hcon]
      rfl
    refine ⟨⟨fun _ => hf, fun _ => ⟨_, hok⟩⟩, fun hnf => absurd hf hnf, ?_⟩
    intro htr
    rw [hok]
    congr 1
    refine List.map_congr_left (fun r _ => ?_)
    by_cases hr : r.id = articleId
    · rw [if_pos hr, if_pos hr, applyTextField, if_pos htr]
    · rw [if_neg hr, if_neg hr]
  · have hcon : allowedFields.contains field = false := by
      rw [List.contains_eq_any_beq]
      rw [Bool.eq_false_iff]
      intro hany
      rw [List.any_eq_true] at hany
      obtain ⟨g, hg, hg'⟩ := hany
      have hge : field = g := beq_iff_eq.mp hg'
      exact hf (hge ▸ hg)
    have herr : updateText db articleId field value translationLang
        = Except.error "Invalid field" := by
      rw [updateText, hcon]
      rfl
    refine ⟨⟨?_, fun hmem => absurd hmem hf⟩, fun _ => herr, ?_⟩
    · rintro ⟨db', hdb'⟩
      rw [herr] at hdb'
      exact absurd hdb' (by simp)
    · intro htr
      exact absurd (htr ▸ (by decide : ("translation" : String) ∈ allowedFields)) hf

/-- Witness for C8: a disallowed field name is rejected and the
`translation` field update also sets `translation_lang`. -/
theorem C8_update_text_witness :
    updateText [] 1 "saved" "x" none = Except.error "Invalid field"
    ∧ updateText
        [{ id := 1, category := none, title := none, url := "u",
           published := none, doc_type := none, topics := none,
           organisations := none, status := none, image_url := none,
           raw_text := none, is_pdf := false, summary := none, context := none,
           translation := none, translation_lang := none, saved := false,
           notes := none, summary_feedback := none }]
        1 "translation" "bonjour" (some "fr")
      = Except.ok
        [{ id := 1, category := none, title := none, url := "u",
           published := none, doc_type := none, topics := none,
           organisations := none, status := none, image_url := none,
           raw_text := none, is_pdf := false, summary := none, context := none,
           translation := some "bonjour", translation_lang := some "fr",
           saved := false, notes := none, summary_feedback := none }] := by
  constructor
  · exact (C8_update_text [] 1 "saved" "x" none).2.1 (by decide)
  · have := (C8_update_text
      [{ id := 1, category := none, title := none, url := "u",
         published := none, doc_type := none, topics := none,
         organisations := none, status := none, image_url := none,
         raw_text := none, is_pdf := false, summary := none, context := none,
         translation := none, translation_lang := none, saved := false,
         notes := none, summary_feedback := none }]
      1 "translation" "bonjour" (some "fr")).2.2 rfl
    rw [this]
    rfl

/-- The score the claim asserts (stated for comparison with the code's
`topicScore`): the *total* number of non-overlapping word-boundary
matches of all of the topic's keywords, a keyword occurring k times
contributing k. -/
def claimedTopicScore (topic : String) (t : List Char) : Nat :=
  ((TOPIC_KEYWORDS topic).map (fun kw => wbCount kw.data t)).sum

/-- C3 counterexample: on the text "nhs nhs" the keyword "nhs" has two
non-overlapping word-boundary matches, so the claimed score of
"Health and social care" is 2, but the code's `re.search`-based loop
adds only 1 per matching keyword and scores 1. -/
theorem C3_counterexample :
    topicScore "Health and social care" (lowerStr "nhs nhs").data = 1
    ∧ claimedTopicScore "Health and social care" (lowerStr "nhs nhs").data = 2
    ∧ (1 : Nat) ≠ 2 := by
  refine ⟨by decide, by decide, by decide⟩

/-- Counting fold: adding 1 per element satisfying `q` counts the
filter. -/
theorem foldl_count_filter (q : String → Bool) (l : List String) :
    ∀ n, l.foldl (fun acc kw => if q kw then acc + 1 else acc) n
      = n + (l.filter q).length := by
  induction l with
  | nil => intro n; simp
  | cons kw rest ih =>
    intro n
    by_cases h : q kw
    · simp [List.foldl_cons, h, ih, List.filter_cons]
      omega
    · simp [List.foldl_cons, h, ih, List.filter_cons]

/-- C3 (amended): the topic's score equals the number of its keywords
that have at least one case-insensitive word-boundary match in the
text — each keyword contributes exactly 1 when present, regardless of
how many times it occurs, so the score never exceeds the keyword
count. -/
theorem C3_score_amended (topic : String) (t : List Char) :
    topicScore topic t
      = ((TOPIC_KEYWORDS topic).filter (fun kw => wbSearch kw.data t)).length
    ∧ topicScore topic t ≤ (TOPIC_KEYWORDS topic).length := by
  have h := foldl_count_filter (fun kw => wbSearch kw.data t) (TOPIC_KEYWORDS topic) 0
  constructor
  · rw [topicScore]
    simpa using h
  · rw [topicScore]
    rw [h]
    simpa using List.length_filter_le (fun kw => wbSearch kw.data t) (TOPIC_KEYWORDS topic)

/-- In a duplicate-free list, a two-element sublist cannot occur in
both orders unless the elements coincide. -/
theorem pair_sublist_asymm {α : Type} {a b : α} :
    ∀ (l : List α), l.Nodup → List.Sublist [a, b] l →
      List.Sublist [b, a] l → a = b := by
  intro l
  induction l with
  | nil => intro _ h1 _; cases h1
  | cons c l ih =>
    intro hnd h1 h2
    have hcl : c ∉ l := (List.nodup_cons.mp hnd).1
    have hndl : l.Nodup := (List.nodup_cons.mp hnd).2
    cases h1 with
    | cons _ h1' =>
      cases h2 with
      | cons _ h2' => exact ih hndl h1' h2'
      | cons₂ _ h2' =>
        exact absurd (h1'.subset (by simp)) hcl
    | cons₂ _ h1' =>
      cases h2 with
      | cons _ h2' =>
        exact absurd (h2'.subset (by simp)) hcl
      | cons₂ _ h2' => rfl

/-- Two distinct members of a list occur as a two-element sublist in
one of the two orders. -/
theorem pair_sublist_total {α : Type} {a b : α} :
    ∀ (l : List α), a ∈ l → b ∈ l → a ≠ b →
      List.Sublist [a, b] l ∨ List.Sublist [b, a] l := by
  intro l
  induction l with
  | nil => intro ha; cases ha
  | cons c l ih =>
    intro ha hb hne
    rcases List.mem_cons.mp ha with rfl | ha'
    · have hb' : b ∈ l := by
        rcases List.mem_cons.mp hb with rfl | hb'
        · exact absurd rfl hne
        · exact hb'
      exact Or.inl (.cons₂ a (List.singleton_sublist.mpr hb'))
    · rcases List.mem_cons.mp hb with rfl | hb'
      · exact Or.inr (.cons₂ b (List.singleton_sublist.mpr ha'))
      · exact (ih ha' hb' hne).imp (.cons c) (.cons c)

/-- The score `guess_topics` ranks a topic by: its `topicScore` on the
lower-cased `title + " " + body`. -/
def combinedScore (title body topic : String) : Nat :=
  topicScore topic (lowerStr (title ++ " " ++ body)).data

/-- C4: `guess_topics` returns at most `N` topics, each scoring
strictly above 0, in descending score order with ties in taxonomy
declaration order (`List.Sublist [a, b] TOPIC_TAXONOMY` states that
`a` is declared before `b`), and the empty list when nothing scores
above 0. -/
theorem C4_guess_topics (title body : String) (N : Nat) :
    (guessTopics title body N).length ≤ N
    ∧ (∀ t ∈ guessTopics title body N, 0 < combinedScore title body t)
    ∧ (guessTopics title body N).Pairwise (fun a b =>
        combinedScore title body b < combinedScore title body a
        ∨ (combinedScore title body a = combinedScore title body b
            ∧ List.Sublist [a, b] TOPIC_TAXONOMY))
    ∧ ((∀ t ∈ TOPIC_TAXONOMY, combinedScore title body t = 0) →
        guessTopics title body N = []) := by
  have hguess : guessTopics title body N
      = ((((scoreList (title ++ " " ++ body)).mergeSort
            (fun a b => decide (b.2 ≤ a.2))).filter
          (fun p => decide (0 < p.2))).map (fun p => p.1)).take N := by
    rw [guessTopics, sortDesc_eq_mergeSort]
  set sl := scoreList (title ++ " " ++ body) with hsl
  set ranked := sl.mergeSort (fun a b => decide (b.2 ≤ a.2)) with hranked
  have hmem_sl : ∀ p ∈ sl, p.2 = combinedScore title body p.1
      ∧ p.1 ∈ TOPIC_TAXONOMY := by
    intro p hp
    rw [hsl, scoreList] at hp
    obtain ⟨k, hk, rfl⟩ := List.mem_map.mp hp
    exact ⟨rfl, hk⟩
  have hnodup_tax : TOPIC_TAXONOMY.Nodup := by decide
  have hnodup_sl : sl.Nodup := by
    rw [hsl, scoreList]
    exact hnodup_tax.map (fun k₁ k₂ h => congrArg Prod.fst h)
  have hperm : ranked.Perm sl := List.mergeSort_perm sl _
  have hnodup_ranked : ranked.Nodup := hperm.symm.nodup hnodup_sl
  have hslfst : sl.map (fun p => p.1) = TOPIC_TAXONOMY := by
    rw [hsl, scoreList]
    rw [List.map_map]
    rfl
  have hsorted : ranked.Pairwise (fun a b => decide (b.2 ≤ a.2) = true) :=
    List.sorted_mergeSort scoreLE_trans scoreLE_total sl
  have hP : ranked.Pairwise (fun p q =>
      q.2 < p.2 ∨ (p.2 = q.2 ∧ List.Sublist [p, q] sl)) := by
    rw [List.pairwise_iff_forall_sublist]
    intro p q hpq
    have hle : q.2 ≤ p.2 := by
      have := List.pairwise_iff_forall_sublist.mp hsorted hpq
      simpa using this
    by_cases hlt : q.2 < p.2
    · exact Or.inl hlt
    · have heq : p.2 = q.2 := Nat.le_antisymm (Nat.not_lt.mp hlt) hle
      have hne : p ≠ q := List.pairwise_iff_forall_sublist.mp hnodup_ranked hpq
      have hpsl : p ∈ sl := hperm.subset (hpq.subset (by simp))
      have hqsl : q ∈ sl := hperm.subset (hpq.subset (by simp))
      rcases pair_sublist_total sl hpsl hqsl hne with h | h
      · exact Or.inr ⟨heq, h⟩
      · have hqp : List.Sublist [q, p] ranked :=
          List.pair_sublist_mergeSort scoreLE_trans scoreLE_total
            (by simp [heq]) h
        exact absurd (pair_sublist_asymm ranked hnodup_ranked hpq hqp) hne
  refine ⟨?_, ?_, ?_, ?_⟩
  · rw [hguess, List.length_take]
    exact Nat.min_le_left _ _
  · intro t ht
    rw [hguess] at ht
    have ht' := (List.take_sublist N _).subset ht
    obtain ⟨p, hpf, rfl⟩ := List.mem_map.mp ht'
    have hpr : p ∈ ranked := (List.filter_sublist ranked).subset hpf
    have hpos : 0 < p.2 := by
      have := List.of_mem_filter hpf
      simpa using this
    have := (hmem_sl p (hperm.subset hpr)).1
    rw [← this]
    exact hpos
  · rw [hguess]
    refine List.Pairwise.sublist (List.take_sublist N _) ?_
    rw [List.pairwise_map]
    refine hP.sublist (List.filter_sublist ranked) |>.imp_of_mem ?_
    intro p q hpm hqm hPpq
    have hpsl : p ∈ sl := hperm.subset ((List.filter_sublist ranked).subset hpm)
    have hqsl : q ∈ sl := hperm.subset ((List.filter_sublist ranked).subset hqm)
    have hp2 := (hmem_sl p hpsl).1
    have hq2 := (hmem_sl q hqsl).1
    rcases hPpq with hlt | ⟨heq, hsub⟩
    · exact Or.inl (by rw [← hp2, ← hq2]; exact hlt)
    · refine Or.inr ⟨by rw [← hp2, ← hq2]; exact heq, ?_⟩
      have := hsub.map (fun p => p.1)
      rw [hslfst] at this
      simpa using this
  · intro hz
    rw [hguess]
    have hfz : ranked.filter (fun p => decide (0 < p.2)) = [] := by
      rw [List.filter_eq_nil_iff]
      intro p hp
      have hpsl : p ∈ sl := hperm.subset hp
      have := (hmem_sl p hpsl).1
      have hk := (hmem_sl p hpsl).2
      have hz' := hz p.1 hk
      simp [this, hz']
    rw [hfz]
    simp

/-- Witness for C4: a text hitting no keyword yields the empty topic
list. -/
theorem C4_guess_topics_witness : guessTopics "zz" "qq" 3 = [] :=
  (C4_guess_topics "zz" "qq" 3).2.2.2 (by decide)

/-- A short HTML page with a qualifying heading: one 44-character
fragment and a long `<h1>`. -/
def shortPage : HttpResponse :=
  { contentType := some "text/html; charset=utf-8",
    pdfPages := none,
    doc := { timeAttr := none,
             walesFragments := ["This is a short but legitimate notice text."],
             scraperFragments := ["This is a short but legitimate notice text."],
             h1text := some "A sufficiently long heading" } }

/-- C5 counterexample: the ingest_service extractor has **no** heading
carve-out — on a page whose body text is below its 250-character
threshold but which has a long `<h1>`, it still marks the page junk
("too_small"), while the claim requires the minimal text to be kept;
the extractor_wales variant keeps the very same page. -/
theorem C5_counterexample :
    walesH1Keeps shortPage = true
    ∧ (scraperText shortPage).length < 250
    ∧ (extractScraper (Except.ok shortPage) "https://www.gov.wales/notice").is_junk
        = true
    ∧ (extractScraper (Except.ok shortPage) "https://www.gov.wales/notice").junk_reason
        = some "too_small"
    ∧ (extractWales (Except.ok shortPage) "https://www.gov.wales/notice").is_junk
        = false := by
  refine ⟨by decide, by decide, by decide, by decide, by decide⟩

/-- C5 (amended): junk sizing on the HTML path.  In extractor_wales
(threshold 80) sub-threshold text is junk ("html_empty_or_too_small")
unless a qualifying h1 exists (cleaned length ≥ 8), in which case the
minimal text is kept; text at/above 80 is never junk by size.  In the
ingest_service extractor (threshold 250) there is no heading
carve-out: sub-threshold text is always junk ("too_small"), text
at/above 250 is kept. -/
theorem C5_junk_threshold_amended (r : HttpResponse) (url : String)
    (hroute : isPdfRoute r url = false) :
    ((walesText r).length < 80 → walesH1Keeps r = true →
        (extractWales (Except.ok r) url).is_junk = false
        ∧ (extractWales (Except.ok r) url).junk_reason = none)
    ∧ ((walesText r).length < 80 → walesH1Keeps r = false →
        (extractWales (Except.ok r) url).is_junk = true
        ∧ (extractWales (Except.ok r) url).junk_reason
            = some "html_empty_or_too_small")
    ∧ (80 ≤ (walesText r).length →
        (extractWales (Except.ok r) url).is_junk = false
        ∧ (extractWales (Except.ok r) url).junk_reason = none)
    ∧ ((scraperText r).length < 250 →
        (extractScraper (Except.ok r) url).is_junk = true
        ∧ (extractScraper (Except.ok r) url).junk_reason = some "too_small")
    ∧ (250 ≤ (scraperText r).length →
        (extractScraper (Except.ok r) url).is_junk = false
        ∧ (extractScraper (Except.ok r) url).junk_reason = none) := by
  refine ⟨?_, ?_, ?_, ?_, ?_⟩
  · intro h1 h2
    simp [extractWales, hroute, h1, h2]
  · intro h1 h2
    simp [extractWales, hroute, h1, h2]
  · intro h1
    simp [extractWales, hroute, Nat.not_lt.mpr h1]
  · intro h1
    simp [extractScraper, hroute, h1]
  · intro h1
    simp [extractScraper, hroute, Nat.not_lt.mpr h1]

/-- Witness for C5 (amended): the short page with a long heading is
junked by the ingest_service extractor. -/
theorem C5_junk_threshold_amended_witness :
    (extractScraper (Except.ok shortPage) "https://www.gov.wales/notice").is_junk
        = true
    ∧ (extractScraper (Except.ok shortPage) "https://www.gov.wales/notice").junk_reason
        = some "too_small" :=
  (C5_junk_threshold_amended shortPage "https://www.gov.wales/notice"
    (by decide)).2.2.2.1 (by decide)

/-- C6: a failed HTTP request inside either extractor returns normally
(the embedding is a total function of the fetch outcome) with
`is_junk = true` and reason `"request_failed:" ++ <cause>`, which
always starts with "request_failed:". -/
theorem C6_request_failure (e url : String) :
    extractWales (Except.error e) url
      = { text := "", meta := emptyMeta, is_pdf := false, is_junk := true,
          junk_reason := some ("request_failed:" ++ e) }
    ∧ extractScraper (Except.error e) url
      = { text := "", meta := emptyMeta, is_pdf := false, is_junk := true,
          junk_reason := some ("request_failed:" ++ e) }
    ∧ startsWithL "request_failed:".data ("request_failed:" ++ e).data = true := by
  refine ⟨rfl, rfl, ?_⟩
  rw [startsWithL, String.data_append]
  rw [List.take_left]
  simp

/-- A request-failure reason is never the empty string. -/
theorem request_failed_ne_empty (e : String) :
    ("request_failed:" ++ e) ≠ "" := by
  intro h
  have hd := congrArg String.data h
  rw [String.data_append] at hd
  simp at hd

/-- Branch analysis of the wales extractor's junk flag/reason. -/
theorem extractWales_junk_inv (fetched : Except String HttpResponse) (url : String) :
    ((extractWales fetched url).junk_reason = none
      ↔ (extractWales fetched url).is_junk = false)
    ∧ ((extractWales fetched url).is_junk = true →
        ∃ s, (extractWales fetched url).junk_reason = some s ∧ s ≠ "") := by
  cases fetched with
  | error e =>
    exact ⟨by simp [extractWales], fun _ => ⟨_, rfl, request_failed_ne_empty e⟩⟩
  | ok r =>
    simp only [extractWales]
    split
    · split
      · exact ⟨by simp, fun _ => ⟨"pdf_failed", rfl, by decide⟩⟩
      · split
        · exact ⟨by simp, fun _ => ⟨"pdf_empty", rfl, by decide⟩⟩
        · exact ⟨by simp, fun h => absurd h (by simp)⟩
    · split
      · split
        · exact ⟨by simp, fun h => absurd h (by simp)⟩
        · exact ⟨by simp, fun _ => ⟨"html_empty_or_too_small", rfl, by decide⟩⟩
      · exact ⟨by simp, fun h => absurd h (by simp)⟩

theorem extractScraper_junk_inv (fetched : Except String HttpResponse) (url : String) :
    ((extractScraper fetched url).junk_reason = none
      ↔ (extractScraper fetched url).is_junk = false)
    ∧ ((extractScraper fetched url).is_junk = true →
        ∃ s, (extractScraper fetched url).junk_reason = some s ∧ s ≠ "") := by
  cases fetched with
  | error e =>
    exact ⟨by simp [extractScraper], fun _ => ⟨_, rfl, request_failed_ne_empty e⟩⟩
  | ok r =>
    simp only [extractScraper]
    split
    · exact ⟨by simp, fun _ => ⟨"pdf_skipped", rfl, by decide⟩⟩
    · split
      · exact ⟨by simp, fun _ => ⟨"too_small", rfl, by decide⟩⟩
      · exact ⟨by simp, fun h => absurd h (by simp)⟩

/-- C9: for both extractors, `junk_reason` is `None` exactly when
`is_junk` is false, and a junk result always carries a non-empty
reason string. -/
theorem C9_junk_reason_invariant (fetched : Except String HttpResponse) (url : String) :
    ((extractWales fetched url).junk_reason = none
      ↔ (extractWales fetched url).is_junk = false)
    ∧ ((extractWales fetched url).is_junk = true →
        ∃ s, (extractWales fetched url).junk_reason = some s ∧ s ≠ "")
    ∧ ((extractScraper fetched url).junk_reason = none
      ↔ (extractScraper fetched url).is_junk = false)
    ∧ ((extractScraper fetched url).is_junk = true →
        ∃ s, (extractScraper fetched url).junk_reason = some s ∧ s ≠ "") :=
  ⟨(extractWales_junk_inv fetched url).1, (extractWales_junk_inv fetched url).2,
   (extractScraper_junk_inv fetched url).1, (extractScraper_junk_inv fetched url).2⟩

/-- Witness for C9 at a concrete junk extraction. -/
theorem C9_junk_reason_invariant_witness :
    ∃ s, (extractWales (Except.error "timeout") "u").junk_reason = some s ∧ s ≠ "" :=
  (C9_junk_reason_invariant (Except.error "timeout") "u").2.1 rfl
